import Mathlib

/-!
Verification of the realtime audio pipeline of the usb-video repository.

The definitions below are shallow embeddings of:
  * `RingBuffer.h`   — the template class `RingBuffer<T>` (circular sample buffer);
  * `UsbAudioStreamer.h` / `UsbAudioStreamer.cpp` — the streamer state machine,
    transfer pool sizing, start/stop, the USB transfer-completion callback and
    the audio render callback.

Machine integers of the source are modelled as `Nat`; the cursor arithmetic of
the ring buffer is performed modulo the capacity exactly as in the source.
Calls into external libraries (libusb, AAudio) are modelled by environment
parameters that record each call's outcome.
-/

namespace UsbVideo

/-- Model of `memcpy(&buf[dst], src, len)` for a list-represented array: the
`src.length` elements starting at index `dst` of `buf` are replaced by `src`.
(Every use below satisfies `dst + src.length ≤ buf.length`, matching the
in-bounds copies of the source.) -/
def memcpyAt {α : Type} (buf : List α) (dst : Nat) (src : List α) : List α :=
  buf.take dst ++ src ++ buf.drop (dst + src.length)

/-- Shallow embedding of the state of `RingBuffer<T>` from `RingBuffer.h`:
`capacity_`, `readPos_`, `writePos_` and the backing array `buffer_`. -/
structure RingBuffer (α : Type) where
  capacity : Nat
  readPos : Nat
  writePos : Nat
  buffer : List α
deriving DecidableEq

namespace RingBuffer

variable {α : Type}

/-- The constructor `RingBuffer(int capacity)`: both cursors start at 0 and the
backing array is zero-filled (`memset(buffer_.get(), 0, ...)`), with the zero
element of the sample type passed explicitly. -/
def new (capacity : Nat) (zero : α) : RingBuffer α :=
  ⟨capacity, 0, 0, List.replicate capacity zero⟩

/-- `size()`: `(writePos_ + capacity_ - readPos_) % capacity_`. -/
def size (rb : RingBuffer α) : Nat :=
  (rb.writePos + rb.capacity - rb.readPos) % rb.capacity

/-- `write(T* data, int len)` from `RingBuffer.h`.  The input array is the list
`data` (a null pointer or non-positive `len` corresponds to the empty list).
Returns the updated buffer and the value returned by the C++ function. -/
def write (rb : RingBuffer α) (data : List α) : RingBuffer α × Nat :=
  if data.length = 0 then (rb, 0)
  else
    -- if (len > capacity_) { data = &data[len - capacity_]; len = capacity_; }
    let tdata := if data.length > rb.capacity then data.drop (data.length - rb.capacity) else data
    let len := if data.length > rb.capacity then rb.capacity else data.length
    let size := (rb.writePos + rb.capacity - rb.readPos) % rb.capacity
    let start := rb.writePos
    let endPos := (rb.writePos + len) % rb.capacity
    let buf :=
      if start < endPos then memcpyAt rb.buffer start tdata
      else
        let firstSlice := rb.capacity - start
        memcpyAt (memcpyAt rb.buffer start (tdata.take firstSlice)) 0 (tdata.drop firstSlice)
    let readPos' :=
      if size + len > rb.capacity then (rb.readPos + size + len) % rb.capacity else rb.readPos
    ({ rb with buffer := buf, writePos := endPos, readPos := readPos' }, len)

/-- `read(T* data, int len)` from `RingBuffer.h`.  Returns the updated buffer
and the samples copied out (the C++ function's return value is their count). -/
def read (rb : RingBuffer α) (len : Nat) : RingBuffer α × List α :=
  let available := (rb.writePos + rb.capacity - rb.readPos) % rb.capacity
  if available = 0 ∨ len = 0 then (rb, [])
  else
    let toCopy := min len available
    let start := rb.readPos
    let endPos := (rb.readPos + toCopy) % rb.capacity
    let out :=
      if start < endPos then (rb.buffer.drop start).take toCopy
      else
        let firstSlice := rb.capacity - start
        (rb.buffer.drop start).take firstSlice ++ rb.buffer.take (toCopy - firstSlice)
    ({ rb with readPos := endPos }, out)

/-- Well-formedness of a ring-buffer state: positive capacity, cursors within
range (as maintained by the modular arithmetic of the source) and a backing
array of exactly `capacity_` elements (as allocated by the constructor). -/
def WF (rb : RingBuffer α) : Prop :=
  0 < rb.capacity ∧ rb.readPos < rb.capacity ∧ rb.writePos < rb.capacity ∧
    rb.buffer.length = rb.capacity

instance (rb : RingBuffer α) : Decidable rb.WF := by
  unfold WF; infer_instance

end RingBuffer

/-- One client call on the ring buffer (the only mutating entry points of
`RingBuffer.h`). -/
inductive RBOp
  | write (data : List Nat)
  | read (len : Nat)
deriving DecidableEq

/-- Run a sequence of `write`/`read` calls, keeping the resulting buffer. -/
def runOps (rb : RingBuffer Nat) : List RBOp → RingBuffer Nat
  | [] => rb
  | RBOp.write d :: rest => runOps (rb.write d).1 rest
  | RBOp.read l :: rest => runOps (rb.read l).1 rest

/-- How `size()` actually evolves per call in `RingBuffer.h`: a write of `l`
effective (post-truncation) samples moves `size` to `size + l` while that stays
below the capacity and collapses it to `0` otherwise (the cursors cannot
represent a full buffer); a read removes `min(len, size)` samples. -/
def sizeStep (c : Nat) (s : Nat) : RBOp → Nat
  | RBOp.write d =>
      let l := min d.length c
      if l = 0 then s else if s + l < c then s + l else 0
  | RBOp.read l => s - min l s

/-- Modelled from the spec: the buffered-count predicted by the words of
claim C2 / spec §8 — "total written minus total read, saturated at
`[0, capacity]`" — for comparison against the implementation's `size()`. -/
def specPredictedSize (written readCount capacity : Nat) : Nat :=
  min (written - readCount) capacity

/-- `StreamerState` from `UsbAudioStreamer.h`. -/
inductive StreamerState
  | INITIAL
  | READY_TO_START
  | STARTING
  | STARTED
  | STOPPING
  | STOPPED
  | DESTROYING
  | DESTROYED
  | ERROR
deriving DecidableEq

/-- The AAudio stream states this code consults. -/
inductive AAState
  | UNINITIALIZED
  | STARTING
  | STARTED
  | STOPPING
  | STOPPED
  | OTHER
deriving DecidableEq

/-- `aaudio_data_callback_result_t`. -/
inductive AAudioCallbackResult
  | CONTINUE
  | STOP
deriving DecidableEq

/-- `UsbAudioStreamerStats` from `UsbAudioStreamer.h`.  Counters keep the
widths of their C types (`uint32_t`/`uint16_t`); the two time points are
nanoseconds since the clock epoch, 0 doubling as the unset sentinel exactly as
`time_since_epoch().count() == 0` does in the source. -/
structure UsbAudioStreamerStats where
  total_bytes : Nat
  usb_cb_counter : Nat
  player_cb_counter : Nat
  event_loops : Nat
  t0_10_s : Nat
  samplingFrequency : Nat
  currentSamplingFrequency : Nat
  t0_1_s : Nat
deriving DecidableEq

/-- `UsbAudioStreamerStats::recordSamples`, with `now` the value of
`high_resolution_clock::now()` in nanoseconds; the 1 s window comparison uses
whole truncated seconds as `duration_cast<seconds>` does. -/
def recordSamples (stats : UsbAudioStreamerStats) (samples : Nat) (now : Nat) :
    UsbAudioStreamerStats :=
  let stats1 := { stats with currentSamplingFrequency :=
    (stats.currentSamplingFrequency + samples) % 4294967296 }
  if (now - stats1.t0_1_s) / 1000000000 ≥ 1 then
    { stats1 with
      t0_1_s := now
      samplingFrequency := stats1.currentSamplingFrequency
      currentSamplingFrequency := 0 }
  else stats1

/-- Outcome of each external call made by the `UsbAudioStreamer` constructor,
in source order. -/
structure ConstructorEnv where
  setNoDiscoveryOk : Bool
  initOk : Bool
  setLogLevelOk : Bool
  wrapDeviceOk : Bool
  getConfigOk : Bool
  createBuilderOk : Bool
  openStreamOk : Bool
  resolveInterfaceOk : Bool
  allocResults : List Bool
deriving DecidableEq

/-- What running the constructor produces: the final `state_`, the
`isSubmitted` flags of the transfer pool, and whether
`allocateTransferRequests` was reached. -/
structure ConstructResult where
  state : StreamerState
  transfers : List Bool
  allocateReached : Bool
deriving DecidableEq

/-- The slot-allocation loop of `allocateTransferRequests`: a slot is appended
only when `libusb_alloc_transfer` returns non-null (a null transfer is skipped
with `continue`), and every slot starts with `isSubmitted = false`. -/
def allocatedSlots (allocResults : List Bool) : List Bool :=
  (allocResults.filter (fun b => b)).map (fun _ => false)

/-- `UsbAudioStreamer::UsbAudioStreamer` as a function of the outcomes of its
external calls.  The two initial calls (`libusb_set_option` for
`NO_DEVICE_DISCOVERY` and `libusb_init`) log failures but do not abort; the
log-level option, `libusb_wrap_sys_device` and
`libusb_get_active_config_descriptor` return early on failure with `state_`
still `INITIAL`; a failed `AAudio_createStreamBuilder` or a failed
`resolveAudioInterface` sets `state_ = ERROR` and returns;
`AAudioStreamBuilder_openStream`'s result is logged but never checked. -/
def constructStreamer (env : ConstructorEnv) : ConstructResult :=
  if !env.setLogLevelOk then ⟨StreamerState.INITIAL, [], false⟩
  else if !env.wrapDeviceOk then ⟨StreamerState.INITIAL, [], false⟩
  else if !env.getConfigOk then ⟨StreamerState.INITIAL, [], false⟩
  else if !env.createBuilderOk then ⟨StreamerState.ERROR, [], false⟩
  else if !env.resolveInterfaceOk then ⟨StreamerState.ERROR, [], false⟩
  else ⟨StreamerState.READY_TO_START, allocatedSlots env.allocResults, true⟩

/-- The five quantities computed by `allocateTransferRequests`. -/
structure TransferSizing where
  bytesPerBurst : Nat
  numPackets : Nat
  bufferSize : Nat
  numTransfers : Nat
  ringCapacity : Nat
deriving DecidableEq

/-- The sizing computation of `UsbAudioStreamer::allocateTransferRequests`
(C integer division on non-negative values coincides with `Nat` division). -/
def allocateSizing (framesPerBurst subFrameSize channelCount maxPacketSize
    bufferCapacityInFrames : Nat) : TransferSizing :=
  let bytes_per_burst := framesPerBurst * subFrameSize * channelCount
  let computed_num_packets := (bytes_per_burst + maxPacketSize - 1) / maxPacketSize
  let num_packets := max 2 computed_num_packets
  let buffer_size := maxPacketSize * num_packets
  let computed_num_transfers := (bufferCapacityInFrames + framesPerBurst - 1) / framesPerBurst
  let num_transfers := max 2 computed_num_transfers
  let ring_buffer_capacity := buffer_size * num_transfers / subFrameSize
  ⟨bytes_per_burst, num_packets, buffer_size, num_transfers, ring_buffer_capacity⟩

/-- The streamer fields read and written by `start()` and
`submitTransferRequests()`. -/
structure StartState where
  state : StreamerState
  stats : UsbAudioStreamerStats
  transfers : List Bool
  stopUsbAudioCapture : Nat
deriving DecidableEq

/-- `UsbAudioStreamer::submitTransferRequests`: each slot's `isSubmitted`
becomes the success of its own `libusb_submit_transfer` call; if the count of
accepted slots is zero, `state_` is set to `ERROR` and the call fails. -/
def submitTransferRequests (s : StartState) (submitOk : Nat → Bool) : StartState × Bool :=
  let transfers := (List.range s.transfers.length).map submitOk
  let submitted := (transfers.filter (fun b => b)).length
  if submitted = 0 then ({ s with transfers := transfers, state := StreamerState.ERROR }, false)
  else ({ s with transfers := transfers }, true)

/-- `UsbAudioStreamer::startAudioPlayer`: `AAudioStream_requestStart` must
succeed and the 500 ms bounded wait must observe `STARTED`. -/
def startAudioPlayer (requestStartOk : Bool) (nextState : AAState) : Bool :=
  if !requestStartOk then false else decide (nextState = AAState.STARTED)

/-- Outcomes of the external calls made by `start()`. -/
structure StartEnv where
  submitOk : Nat → Bool
  requestStartOk : Bool
  playerNextState : AAState
  waitResultOk : Bool

/-- `UsbAudioStreamer::start()`: refuse any state other than
`READY_TO_START`; otherwise move to `STARTING`, reset the windowed statistics
and the cancellation flag, submit the transfer pool, start the audio player,
and run the bounded wait whose result is checked; failures land in `ERROR`,
success in `STARTED`. -/
def startStreamer (s : StartState) (env : StartEnv) : StartState × Bool :=
  if s.state ≠ StreamerState.READY_TO_START then (s, false)
  else
    let s1 : StartState :=
      { s with
        state := StreamerState.STARTING
        stats := { s.stats with
          t0_10_s := 0
          total_bytes := 0
          player_cb_counter := 0
          usb_cb_counter := 0
          event_loops := 0 }
        stopUsbAudioCapture := 0 }
    let sub := submitTransferRequests s1 env.submitOk
    if !sub.2 then (sub.1, false)
    else if !startAudioPlayer env.requestStartOk env.playerNextState then
      ({ sub.1 with state := StreamerState.ERROR }, false)
    else if !env.waitResultOk then ({ sub.1 with state := StreamerState.ERROR }, false)
    else ({ sub.1 with state := StreamerState.STARTED }, true)

/-- The drain loop of `stop()`:
`while (hasActiveTransfers() && tries++ < 5) wait_for(100ms)`.
`hasActive i` is the value returned by the i-th call to
`hasActiveTransfers()`; the result is the loop's exit index, which is also the
number of 100 ms waits performed. -/
def stopLoopExit (hasActive : Nat → Bool) (i : Nat) : Nat :=
  if h : hasActive i = true ∧ i < 5 then stopLoopExit hasActive (i + 1) else i
termination_by 5 - i
decreasing_by omega

/-- `UsbAudioStreamer::stopAudioPlayer`: `AAudioStream_requestStop` must
succeed and the 500 ms bounded wait must observe `STOPPED`. -/
def stopAudioPlayer (requestStopOk : Bool) (nextState : AAState) : Bool :=
  if !requestStopOk then false else decide (nextState = AAState.STOPPED)

/-- Outcomes of the external calls made by `stop()`. -/
structure StopEnv where
  hasActive : Nat → Bool
  requestStopOk : Bool
  playerNextState : AAState

/-- `UsbAudioStreamer::stop()`: set `state_ = STOPPING`, run the bounded drain
loop, set the cancellation flag, then re-check `hasActiveTransfers()` (call
index `exit + 1`) and stop the audio player; any remaining active transfer or
a failed player stop lands in `ERROR` with a `false` return, otherwise
`READY_TO_START` with `true`. -/
def stopStreamer (env : StopEnv) : Bool × StreamerState :=
  let e := stopLoopExit env.hasActive 0
  if env.hasActive (e + 1) || !(stopAudioPlayer env.requestStopOk env.playerNextState) then
    (false, StreamerState.ERROR)
  else (true, StreamerState.READY_TO_START)

/-- `libusb_transfer_status`. -/
inductive TransferStatus
  | COMPLETED
  | ERROR
  | TIMED_OUT
  | CANCELLED
  | STALL
  | NO_DEVICE
  | OVERFLOW
deriving DecidableEq

/-- One isochronous packet descriptor together with its buffer content viewed
as uint16 samples (`transferCallback` writes `actual_length / 2` samples from
the packet buffer). -/
structure IsoPacket where
  status : TransferStatus
  actualLength : Nat
  payload : List Nat
deriving DecidableEq

/-- Result classes of the `libusb_submit_transfer` call at the end of the
completion callback. -/
inductive ResubmitStatus
  | SUCCESS
  | ERROR_NO_DEVICE
  | OTHER_ERROR
deriving DecidableEq

/-- What one run of `UsbAudioStreamer::transferCallback` produces: this
slot's `isSubmitted` flag, the ring buffer, the statistics, whether
`libusb_submit_transfer` was attempted for resubmission, and whether the
condition variable was signaled. -/
structure CallbackResult where
  isSubmitted : Bool
  ring : RingBuffer Nat
  stats : UsbAudioStreamerStats
  resubmitAttempted : Bool
  signaled : Bool
deriving DecidableEq

/-- `UsbAudioStreamer::transferCallback` as a function of the transfer status,
the packet descriptors, the streamer state and the outcomes of external calls
(`otherActive` is `hasActiveTransfers()` over the pool after this slot was
marked idle; `now`/`nowHr` are the two clock readings in nanoseconds).  The
callback first clears the slot's `isSubmitted`; on `NO_DEVICE` it returns
immediately; in `STOPPING` it signals the waiting control thread when no slot
remains active and keeps the slot idle; in `DESTROYING`/`DESTROYED` it
returns; otherwise it copies every completed packet's payload into the ring
buffer, updates the windowed statistics, abandons the slot if the byte total
exceeds `maxPacketSize * num_iso_packets`, and finally resubmits. -/
def transferCallback (status : TransferStatus) (packets : List IsoPacket)
    (state : StreamerState) (ring : RingBuffer Nat) (stats : UsbAudioStreamerStats)
    (maxPacketSize channelCount subFrameSize : Nat) (otherActive : Bool)
    (now nowHr : Nat) (resubmit : ResubmitStatus) : CallbackResult :=
  if status = TransferStatus.NO_DEVICE then
    ⟨false, ring, stats, false, false⟩
  else if state = StreamerState.STOPPING then
    ⟨false, ring, stats, false, !otherActive⟩
  else if state = StreamerState.DESTROYING ∨ state = StreamerState.DESTROYED then
    ⟨false, ring, stats, false, false⟩
  else
    let step := fun (acc : RingBuffer Nat × Nat) (pkt : IsoPacket) =>
      if pkt.status ≠ TransferStatus.COMPLETED then acc
      else
        let dataSize := pkt.actualLength / 2
        ((acc.1.write (pkt.payload.take dataSize)).1, acc.2 + pkt.actualLength)
    let rl := packets.foldl step (ring, 0)
    let len := rl.2
    let stats1 := if 0 < len then
        recordSamples stats (len / channelCount / subFrameSize) nowHr
      else stats
    let stats2 := if stats1.t0_10_s = 0 then
        { stats1 with
          t0_10_s := now
          total_bytes := 0
          player_cb_counter := 0
          usb_cb_counter := 0 }
      else stats1
    let stats3 := { stats2 with
      total_bytes := (stats2.total_bytes + len) % 4294967296
      usb_cb_counter := (stats2.usb_cb_counter + 1) % 65536 }
    let stats4 := if (now - stats3.t0_10_s) / 1000000000 ≥ 10 then
        { stats3 with
          t0_10_s := now
          total_bytes := 0
          player_cb_counter := 0
          usb_cb_counter := 0
          event_loops := 0 }
      else stats3
    if maxPacketSize * packets.length < len then
      ⟨false, rl.1, stats4, false, false⟩
    else
      match resubmit with
      | ResubmitStatus.SUCCESS => ⟨true, rl.1, stats4, true, false⟩
      | ResubmitStatus.ERROR_NO_DEVICE => ⟨false, rl.1, stats4, true, false⟩
      | ResubmitStatus.OTHER_ERROR => ⟨false, rl.1, stats4, true, false⟩

/-- What one run of `UsbAudioStreamer::audioPlaybackCallback` produces: the
bytes written into `audioData`, the ring buffer, the statistics and the
callback's return value. -/
structure RenderResult where
  output : List Nat
  ring : RingBuffer Nat
  stats : UsbAudioStreamerStats
  result : AAudioCallbackResult
deriving DecidableEq

/-- A uint16 sample sequence laid out as little-endian bytes, as the render
callback's buffer read stores samples into the output block. -/
def samplesToBytes (samples : List Nat) : List Nat :=
  (samples.map (fun s => [s % 256, s / 256 % 256])).flatten

/-- `UsbAudioStreamer::audioPlaybackCallback`.  The callback first pumps
pending USB completions inline (`libusb_handle_events_timeout_completed`,
modelled separately by `transferCallback`); `ring` and `stats` here are the
streamer's state once that pump has run.  It then computes the required sample
count `channelCount * numFrames`, and either zero-fills the whole requested
byte range (underrun) or reads exactly that many samples; it always returns
`CONTINUE`. -/
def audioPlaybackCallback (ring : RingBuffer Nat) (stats : UsbAudioStreamerStats)
    (numFrames channelCount subFrameSize : Nat) : RenderResult :=
  let sizeToRead := channelCount * numFrames
  let bytesToRead := numFrames * channelCount * subFrameSize
  let stats1 := { stats with
    event_loops := (stats.event_loops + 1) % 65536
    player_cb_counter := (stats.player_cb_counter + 1) % 65536 }
  let available := ring.size
  if available < sizeToRead then
    ⟨List.replicate bytesToRead 0, ring, stats1, AAudioCallbackResult.CONTINUE⟩
  else
    let r := ring.read sizeToRead
    ⟨samplesToBytes r.2, r.1, stats1, AAudioCallbackResult.CONTINUE⟩

namespace RingBuffer

/-- A value reduced modulo `c` that is already below `2*c` either stays or
loses a single `c`; this is the only modular reduction the cursor arithmetic
of `RingBuffer.h` ever performs. -/
theorem mod_two_regions {c x : Nat} (hc : 0 < c) (hx : x < 2 * c) :
    x % c = if x < c then x else x - c := by
  split
  · exact Nat.mod_eq_of_lt ‹x < c›
  · rw [Nat.mod_eq_sub_mod (by omega)]
    exact Nat.mod_eq_of_lt (by omega)

theorem size_eq_if (rb : RingBuffer α) (hr : rb.readPos < rb.capacity)
    (hw : rb.writePos < rb.capacity) :
    rb.size = if rb.readPos ≤ rb.writePos then rb.writePos - rb.readPos
              else rb.writePos + rb.capacity - rb.readPos := by
  unfold size
  rw [mod_two_regions (by omega) (by omega)]
  split <;> split <;> omega

theorem length_memcpyAt (buf : List α) (dst : Nat) (src : List α)
    (h : dst + src.length ≤ buf.length) : (memcpyAt buf dst src).length = buf.length := by
  simp [memcpyAt]
  omega

theorem memcpyAt_drop (buf : List α) (dst : Nat) (src : List α) (h : dst ≤ buf.length) :
    (memcpyAt buf dst src).drop dst = src ++ buf.drop (dst + src.length) := by
  unfold memcpyAt
  rw [List.append_assoc, List.drop_left']
  simp
  omega

/-- On an empty buffer (`readPos_ = writePos_`), a write of at most `capacity_`
samples takes the non-truncating path: it copies the data (wrapping when
needed), advances the write cursor by the sample count, leaves the read cursor
in place, and returns the sample count. -/
theorem write_on_empty (c p : Nat) (buf : List α) (data : List α) (hp : p < c)
    (h0 : 0 < data.length) (hl : data.length ≤ c) :
    (RingBuffer.mk c p p buf).write data =
      ({ capacity := c, readPos := p, writePos := (p + data.length) % c,
         buffer :=
           if p < (p + data.length) % c then memcpyAt buf p data
           else memcpyAt (memcpyAt buf p (data.take (c - p))) 0 (data.drop (c - p)) },
       data.length) := by
  unfold write
  rw [if_neg (by omega)]
  have hgt : ¬ data.length > c := by omega
  have hsz : (p + c - p) % c = 0 := by
    rw [show p + c - p = c from by omega, Nat.mod_self]
  simp only [if_neg hgt, hsz]
  rw [if_neg (by omega)]

theorem drop_memcpyAt_wrap (buf tk dr : List α) (p c : Nat) (hb : buf.length = c)
    (hp : p < c) (htk : tk.length = c - p) (hdr : dr.length ≤ p) :
    (memcpyAt (memcpyAt buf p tk) 0 dr).drop p = tk := by
  have hinner : memcpyAt buf p tk = buf.take p ++ (tk ++ []) := by
    unfold memcpyAt
    rw [show p + tk.length = c from by omega, ← hb, List.drop_length, List.append_assoc]
  have houter : memcpyAt (memcpyAt buf p tk) 0 dr =
      dr ++ (memcpyAt buf p tk).drop dr.length := by
    unfold memcpyAt
    simp
  rw [houter, show p = dr.length + (p - dr.length) from by omega, ← List.drop_drop,
    List.drop_left' rfl, List.drop_drop, show dr.length + (p - dr.length) = p from by omega,
    hinner, List.drop_left' (by simp; omega)]
  simp

/-- **C1, amended roundtrip.**  Writing `0 < n < capacity` samples into an
empty buffer and reading `n` samples back returns exactly the data written. -/
theorem write_then_read_roundtrip_general {α : Type} (c p : Nat) (buf data : List α)
    (hp : p < c) (hb : buf.length = c) (h0 : 0 < data.length) (hlt : data.length < c) :
    (((RingBuffer.mk c p p buf).write data).1.read data.length).2 = data ∧
    ((RingBuffer.mk c p p buf).write data).2 = data.length := by
  rw [write_on_empty c p buf data hp h0 (le_of_lt hlt)]
  refine ⟨?_, rfl⟩
  set l := data.length with hl
  unfold read
  have hmod : (p + l) % c = if p + l < c then p + l else p + l - c :=
    mod_two_regions (by omega) (by omega)
  have hav : ((p + l) % c + c - p) % c = l := by
    rw [hmod]
    split
    · rw [show p + l + c - p = l + c from by omega, Nat.add_mod_right]
      exact Nat.mod_eq_of_lt hlt
    · rw [show p + l - c + c - p = l from by omega]
      exact Nat.mod_eq_of_lt hlt
  simp only [hav]
  rw [if_neg (by omega)]
  simp only [Nat.min_self]
  by_cases hcase : p + l < c
  · -- contiguous write, contiguous read
    have hend : (p + l) % c = p + l := by rw [hmod, if_pos hcase]
    rw [hend, if_pos (by omega), if_pos (by omega)]
    rw [memcpyAt_drop buf p data (by omega), List.take_left' hl.symm]
  · -- wrapped write, wrapped read
    have hend : (p + l) % c = p + l - c := by rw [hmod, if_neg hcase]
    rw [hend, if_neg (by omega), if_neg (by omega)]
    have htk : (data.take (c - p)).length = c - p := by simp; omega
    have hdr : (data.drop (c - p)).length = l - (c - p) := by simp
    rw [drop_memcpyAt_wrap buf _ _ p c hb hp htk (by rw [hdr]; omega)]
    rw [List.take_of_length_le (le_of_eq htk)]
    have houter : memcpyAt (memcpyAt buf p (data.take (c - p))) 0 (data.drop (c - p)) =
        data.drop (c - p) ++ (memcpyAt buf p (data.take (c - p))).drop (l - (c - p)) := by
      unfold memcpyAt
      simp [hdr]
    rw [houter, List.take_left' (by rw [hdr])]
    exact List.take_append_drop (c - p) data

/-- A full-capacity wrapped write (`first_slice = c - w` elements at the write
cursor, the remaining `w` elements at offset 0) rotates the payload into the
backing array. -/
theorem memcpyAt_wrap_eq (buf tk dr : List α) (w c : Nat) (hb : buf.length = c)
    (hw : w < c) (htk : tk.length = c - w) (hdr : dr.length = w) :
    memcpyAt (memcpyAt buf w tk) 0 dr = dr ++ tk := by
  have hinner : memcpyAt buf w tk = buf.take w ++ (tk ++ []) := by
    unfold memcpyAt
    rw [show w + tk.length = c from by omega, ← hb, List.drop_length, List.append_assoc]
  rw [hinner]
  unfold memcpyAt
  rw [List.take_zero, Nat.zero_add, hdr, List.drop_left' (by simp; omega)]
  simp

/-- **C9.**  A write whose length exceeds the capacity keeps exactly the last
`capacity_` samples of the input (laid out in ring order from the old write
cursor) and returns the post-truncation count `capacity_`. -/
theorem write_overflow_general {α : Type} (rb : RingBuffer α) (data : List α)
    (hwf : rb.WF) (hgt : rb.capacity < data.length) :
    (rb.write data).2 = rb.capacity ∧
    ∀ i, i < rb.capacity →
      ((rb.write data).1.buffer)[(rb.writePos + i) % rb.capacity]? =
        data[data.length - rb.capacity + i]? := by
  obtain ⟨hc, hr, hw, hb⟩ := hwf
  have hd'len : (data.drop (data.length - rb.capacity)).length = rb.capacity := by
    rw [List.length_drop]
    omega
  have htk : ((data.drop (data.length - rb.capacity)).take (rb.capacity - rb.writePos)).length
      = rb.capacity - rb.writePos := by
    rw [List.length_take, hd'len]
    omega
  have hdr : ((data.drop (data.length - rb.capacity)).drop (rb.capacity - rb.writePos)).length
      = rb.writePos := by
    rw [List.length_drop, hd'len]
    omega
  have hend : (rb.writePos + rb.capacity) % rb.capacity = rb.writePos := by
    rw [Nat.add_mod_right]
    exact Nat.mod_eq_of_lt hw
  have hval : (rb.write data).2 = rb.capacity := by
    unfold write
    rw [if_neg (by omega)]
    simp only [if_pos hgt]
  have hbuf : (rb.write data).1.buffer =
      (data.drop (data.length - rb.capacity)).drop (rb.capacity - rb.writePos) ++
      (data.drop (data.length - rb.capacity)).take (rb.capacity - rb.writePos) := by
    unfold write
    rw [if_neg (by omega)]
    simp only [if_pos hgt, hend, if_neg (lt_irrefl rb.writePos)]
    exact memcpyAt_wrap_eq rb.buffer _ _ rb.writePos rb.capacity hb hw htk hdr
  refine ⟨hval, fun i hi => ?_⟩
  rw [hbuf, mod_two_regions hc (by omega)]
  by_cases hcase : rb.writePos + i < rb.capacity
  · rw [if_pos hcase, List.getElem?_append_right (by omega),
      List.getElem?_take_of_lt (by omega), List.getElem?_drop, hdr,
      show data.length - rb.capacity + (rb.writePos + i - rb.writePos) =
        data.length - rb.capacity + i from by omega]
  · rw [if_neg hcase, List.getElem?_append_left (by omega), List.getElem?_drop,
      List.getElem?_drop,
      show data.length - rb.capacity + (rb.capacity - rb.writePos +
        (rb.writePos + i - rb.capacity)) = data.length - rb.capacity + i from by omega]

/-- **C10.**  `size()` is always strictly below the capacity (it is a value
reduced modulo `capacity_`), and writing exactly `capacity_` samples into an
empty buffer makes the write cursor meet the read cursor: `size()` reports 0
and a subsequent read returns nothing. -/
theorem size_lt_capacity_full_write_unreadable :
    (∀ (rb : RingBuffer Nat), 0 < rb.capacity → rb.size < rb.capacity) ∧
    (∀ (c p : Nat) (buf data : List Nat), p < c → data.length = c →
      ((RingBuffer.mk c p p buf).write data).1.writePos =
          ((RingBuffer.mk c p p buf).write data).1.readPos ∧
      ((RingBuffer.mk c p p buf).write data).1.size = 0 ∧
      ∀ l, (((RingBuffer.mk c p p buf).write data).1.read l).2 = []) := by
  constructor
  · intro rb hc
    exact Nat.mod_lt _ hc
  · intro c p buf data hp hdl
    rw [write_on_empty c p buf data hp (by omega) (by omega)]
    have hwp : (p + data.length) % c = p := by
      rw [hdl, Nat.add_mod_right]
      exact Nat.mod_eq_of_lt hp
    have hsz : (p + c - p) % c = 0 := by
      rw [show p + c - p = c from by omega, Nat.mod_self]
    refine ⟨by simp [hwp], by simp [size, hwp, hsz], fun l => ?_⟩
    unfold read
    simp only [hwp, hsz]
    simp

theorem length_memcpyAt_wrap (buf : List α) (w : Nat) (tk dr : List α)
    (h2 : w + tk.length ≤ buf.length) (h1 : dr.length ≤ buf.length) :
    (memcpyAt (memcpyAt buf w tk) 0 dr).length = buf.length := by
  have hin : (memcpyAt buf w tk).length = buf.length := length_memcpyAt _ _ _ h2
  rw [length_memcpyAt _ _ _ (by rw [hin]; omega), hin]

theorem write_capacity (rb : RingBuffer α) (data : List α) :
    (rb.write data).1.capacity = rb.capacity := by
  unfold write
  split <;> rfl

theorem write_writePos (rb : RingBuffer α) (data : List α) (h0 : data.length ≠ 0) :
    (rb.write data).1.writePos =
      (rb.writePos + (if data.length > rb.capacity then rb.capacity else data.length)) %
        rb.capacity := by
  unfold write
  rw [if_neg h0]

theorem write_readPos (rb : RingBuffer α) (data : List α) (h0 : data.length ≠ 0) :
    (rb.write data).1.readPos =
      (if (rb.writePos + rb.capacity - rb.readPos) % rb.capacity +
            (if data.length > rb.capacity then rb.capacity else data.length) > rb.capacity
       then (rb.readPos + (rb.writePos + rb.capacity - rb.readPos) % rb.capacity +
             (if data.length > rb.capacity then rb.capacity else data.length)) % rb.capacity
       else rb.readPos) := by
  unfold write
  rw [if_neg h0]

theorem write_buffer (rb : RingBuffer α) (data : List α) (h0 : data.length ≠ 0) :
    (rb.write data).1.buffer =
      (let tdata := if data.length > rb.capacity then data.drop (data.length - rb.capacity)
                    else data
       let len := if data.length > rb.capacity then rb.capacity else data.length
       if rb.writePos < (rb.writePos + len) % rb.capacity
       then memcpyAt rb.buffer rb.writePos tdata
       else memcpyAt (memcpyAt rb.buffer rb.writePos (tdata.take (rb.capacity - rb.writePos))) 0
              (tdata.drop (rb.capacity - rb.writePos))) := by
  unfold write
  rw [if_neg h0]

theorem write_retval (rb : RingBuffer α) (data : List α) :
    (rb.write data).2 = if data.length = 0 then 0
      else if data.length > rb.capacity then rb.capacity else data.length := by
  unfold write
  split <;> simp [*]

theorem write_preserves_WF (rb : RingBuffer α) (data : List α) (h : rb.WF) :
    (rb.write data).1.WF ∧ (rb.write data).1.capacity = rb.capacity := by
  obtain ⟨hc, hr, hw, hb⟩ := h
  by_cases h0 : data.length = 0
  · have heq : rb.write data = (rb, 0) := by
      unfold write
      rw [if_pos h0]
    rw [heq]
    exact ⟨⟨hc, hr, hw, hb⟩, rfl⟩
  refine ⟨⟨?_, ?_, ?_, ?_⟩, write_capacity rb data⟩
  · rw [write_capacity]
    exact hc
  · rw [write_capacity, write_readPos rb data h0]
    set l := if data.length > rb.capacity then rb.capacity else data.length with hl
    split
    · exact Nat.mod_lt _ hc
    · exact hr
  · rw [write_capacity, write_writePos rb data h0]
    exact Nat.mod_lt _ hc
  · rw [write_capacity, write_buffer rb data h0]
    by_cases hgt : data.length > rb.capacity
    · simp only [hgt, if_true]
      have hdl : (data.drop (data.length - rb.capacity)).length = rb.capacity := by
        rw [List.length_drop]; omega
      split
      · rename_i hlt
        exfalso
        have h2 := mod_two_regions (c := rb.capacity) (x := rb.writePos + rb.capacity) hc
          (by omega)
        rw [if_neg (by omega)] at h2
        omega
      · rw [length_memcpyAt_wrap _ _ _ _ ?_ ?_, hb]
        · rw [hb, List.length_take, hdl]; omega
        · rw [hb, List.length_drop, hdl]; omega
    · simp only [hgt, if_false]
      split
      · rename_i hlt
        have hend := mod_two_regions (c := rb.capacity) (x := rb.writePos + data.length) hc
          (by omega)
        rw [length_memcpyAt _ _ _ ?_, hb]
        rw [hb]
        split at hend <;> omega
      · rw [length_memcpyAt_wrap _ _ _ _ ?_ ?_, hb]
        · rw [hb, List.length_take]; omega
        · rw [hb, List.length_drop]; omega

theorem read_preserves_WF (rb : RingBuffer α) (len : Nat) (h : rb.WF) :
    (rb.read len).1.WF ∧ (rb.read len).1.capacity = rb.capacity := by
  obtain ⟨hc, hr, hw, hb⟩ := h
  simp only [read]
  split
  · exact ⟨⟨hc, hr, hw, hb⟩, rfl⟩
  · exact ⟨⟨hc, Nat.mod_lt _ hc, hw, hb⟩, rfl⟩

theorem readPos_after_drop (c w r len : Nat) (hc : 0 < c) (hr : r < c) :
    (r + (w + c - r) % c + len) % c = (w + len) % c := by
  rw [show r + (w + c - r) % c + len = (w + c - r) % c + (r + len) from by omega,
    Nat.mod_add_mod, show w + c - r + (r + len) = w + len + c from by omega,
    Nat.add_mod_right]

theorem size_mod_add (c w r len : Nat) (hc : 0 < c) (hr : r < c) :
    ((w + len) % c + c - r) % c = ((w + c - r) % c + len) % c := by
  rw [show (w + len) % c + c - r = (w + len) % c + (c - r) from by omega, Nat.mod_add_mod,
    show w + len + (c - r) = w + c - r + len from by omega, ← Nat.mod_add_mod]

/-- After a write, `size()` grows by the effective (post-truncation) sample
count while that sum stays below the capacity, and collapses to `0` as soon as
the sum reaches or exceeds it. -/
theorem size_after_write (rb : RingBuffer α) (data : List α) (h : rb.WF) :
    (rb.write data).1.size =
      (let l := min data.length rb.capacity
       if l = 0 then rb.size else if rb.size + l < rb.capacity then rb.size + l else 0) := by
  obtain ⟨hc, hr, hw, hb⟩ := h
  by_cases h0 : data.length = 0
  · have heq : rb.write data = (rb, 0) := by
      unfold write
      rw [if_pos h0]
    simp [heq, h0]
  have hml : min data.length rb.capacity =
      (if data.length > rb.capacity then rb.capacity else data.length) := by
    split <;> omega
  simp only [hml]
  rw [if_neg (by split <;> omega)]
  unfold size
  rw [write_capacity, write_writePos rb data h0, write_readPos rb data h0]
  set l := if data.length > rb.capacity then rb.capacity else data.length with hldef
  have hl0 : 0 < l := by rw [hldef]; split <;> omega
  have hlc : l ≤ rb.capacity := by rw [hldef]; split <;> omega
  set s := (rb.writePos + rb.capacity - rb.readPos) % rb.capacity with hsdef
  have hslt : s < rb.capacity := by rw [hsdef]; exact Nat.mod_lt _ hc
  by_cases hdrop : s + l > rb.capacity
  · rw [if_pos hdrop, if_neg (by omega)]
    rw [show rb.readPos + s + l = rb.readPos + (rb.writePos + rb.capacity - rb.readPos) %
          rb.capacity + l from by rw [hsdef]]
    rw [readPos_after_drop _ _ _ _ hc hr]
    rw [show (rb.writePos + l) % rb.capacity + rb.capacity -
          (rb.writePos + l) % rb.capacity = rb.capacity from by omega, Nat.mod_self]
  · rw [if_neg hdrop]
    rw [size_mod_add _ _ _ _ hc hr, ← hsdef]
    by_cases hfull : s + l < rb.capacity
    · rw [if_pos hfull]
      exact Nat.mod_eq_of_lt hfull
    · rw [if_neg hfull, show s + l = rb.capacity from by omega, Nat.mod_self]

theorem read_cursor_advance (c w r t : Nat) (hc : 0 < c) (hr : r < c) (hw : w < c)
    (ht : t ≤ (w + c - r) % c) :
    (w + c - (r + t) % c) % c = (w + c - r) % c - t := by
  have hs : (w + c - r) % c = if r ≤ w then w - r else w + c - r := by
    rw [mod_two_regions hc (by omega)]
    split <;> split <;> omega
  rw [hs] at ht ⊢
  rw [mod_two_regions hc (show r + t < 2 * c from by split at ht <;> omega)]
  by_cases hrw : r ≤ w <;> by_cases hrt : r + t < c <;>
    simp only [hrw, hrt, if_true, if_false] <;>
    rw [mod_two_regions hc (by omega)] <;> split <;>
    simp only [hrw, hrt, if_true, if_false] at ht <;> omega

theorem read_capacity (rb : RingBuffer α) (len : Nat) :
    (rb.read len).1.capacity = rb.capacity := by
  simp only [read]
  split <;> rfl

theorem read_writePos (rb : RingBuffer α) (len : Nat) :
    (rb.read len).1.writePos = rb.writePos := by
  simp only [read]
  split <;> rfl

theorem read_readPos (rb : RingBuffer α) (len : Nat) :
    (rb.read len).1.readPos =
      if (rb.writePos + rb.capacity - rb.readPos) % rb.capacity = 0 ∨ len = 0 then rb.readPos
      else (rb.readPos + min len ((rb.writePos + rb.capacity - rb.readPos) % rb.capacity)) %
        rb.capacity := by
  simp only [read]
  split <;> rfl

/-- After a read, `size()` shrinks by `min(len, size)`. -/
theorem size_after_read (rb : RingBuffer α) (len : Nat) (h : rb.WF) :
    (rb.read len).1.size = rb.size - min len rb.size := by
  obtain ⟨hc, hr, hw, hb⟩ := h
  unfold size
  rw [read_capacity, read_writePos, read_readPos]
  split
  · rename_i hav
    rcases hav with hav | hav <;> omega
  · exact read_cursor_advance _ _ _ _ hc hr hw (by omega)

/-- `size()` after a sequence of calls is the fold of the per-call evolution
law `sizeStep` over the sequence. -/
theorem runOps_size (rb : RingBuffer Nat) (ops : List RBOp) (h : rb.WF) :
    (runOps rb ops).size = ops.foldl (sizeStep rb.capacity) rb.size := by
  induction ops generalizing rb with
  | nil => rfl
  | cons op rest ih =>
    cases op with
    | write d =>
      rw [runOps, List.foldl_cons, ih _ (write_preserves_WF rb d h).1,
        (write_preserves_WF rb d h).2, size_after_write rb d h]
      rfl
    | read l =>
      rw [runOps, List.foldl_cons, ih _ (read_preserves_WF rb l h).1,
        (read_preserves_WF rb l h).2, size_after_read rb l h]
      rfl

/-- **C1 counterexample.**  At `n = capacity` the roundtrip of the claim
fails: writing 2 samples into an empty capacity-2 buffer and reading 2 samples
back returns nothing, not the data written. -/
theorem write_full_read_nothing_counterexample :
    ((((RingBuffer.new 2 (0 : Nat)).write [5, 6]).1.read 2).2 = [] ∧
      (((RingBuffer.new 2 (0 : Nat)).write [5, 6]).1.read 2).2 ≠ [5, 6]) ∧
    ((RingBuffer.new 2 (0 : Nat)).write [5, 6]).2 = 2 := by decide

/-- **C1 witness** at capacity 3, cursor 1, two samples. -/
theorem write_then_read_roundtrip_general_witness :
    (((RingBuffer.mk 3 1 1 [9, 9, 9]).write [5, 6]).1.read 2).2 = [5, 6] ∧
    ((RingBuffer.mk 3 1 1 [9, 9, 9]).write [5, 6]).2 = 2 :=
  write_then_read_roundtrip_general 3 1 [9, 9, 9] [5, 6] (by decide) (by decide) (by decide)
    (by decide)

/-- **C9 witness**: overflowing write of 3 samples into a capacity-2 buffer. -/
theorem write_overflow_general_witness :
    ((RingBuffer.mk 2 1 1 [3, 4]).write [10, 11, 12]).2 = 2 ∧
    ∀ i, i < 2 →
      (((RingBuffer.mk 2 1 1 [3, 4]).write [10, 11, 12]).1.buffer)[(1 + i) % 2]? =
        [10, 11, 12][3 - 2 + i]? :=
  write_overflow_general ⟨2, 1, 1, [3, 4]⟩ [10, 11, 12] (by decide) (by decide)

/-- **C10 witness** at two concrete buffers. -/
theorem size_lt_capacity_full_write_unreadable_witness :
    (RingBuffer.mk 2 0 1 [4, 5]).size < 2 ∧
    ((RingBuffer.mk 3 1 1 [0, 0, 0]).write [7, 8, 9]).1.size = 0 :=
  ⟨size_lt_capacity_full_write_unreadable.1 ⟨2, 0, 1, [4, 5]⟩ (by decide),
   (size_lt_capacity_full_write_unreadable.2 3 1 [0, 0, 0] [7, 8, 9] (by decide)
     (by decide)).2.1⟩

end RingBuffer

/-- **C2 counterexample.**  A single write of 2 samples into a fresh
capacity-2 buffer stores both samples and drops nothing (the return value is
2 and no previously buffered data existed), yet `size()` afterwards is 0 — not
the saturated difference `min(2 - 0, 2) = 2` predicted by the claim. -/
theorem size_saturation_counterexample :
    ((RingBuffer.new 2 (0 : Nat)).write [5, 6]).2 = 2 ∧
    ((RingBuffer.new 2 (0 : Nat)).write [5, 6]).1.size ≠ specPredictedSize 2 0 2 := by decide

/-- **C2, amended.**  From a fresh buffer, `size()` after any sequence of
writes and reads equals the fold of the per-call law `sizeStep`: a write of
`l > 0` effective (post-truncation) samples yields `size + l` while
`size + l < capacity` and `0` otherwise (a filling or overflowing write makes
the buffer report empty), and a read removes `min(len, size)`.  The spec's
saturated difference only matches while no write ever reaches the capacity. -/
theorem size_evolution_fresh (c : Nat) (hc : 0 < c) (ops : List RBOp) :
    (runOps (RingBuffer.new c 0) ops).size = ops.foldl (sizeStep c) 0 := by
  have hwf : (RingBuffer.new c 0).WF := by
    refine ⟨hc, hc, hc, ?_⟩
    simp [RingBuffer.new]
  have h := RingBuffer.runOps_size (RingBuffer.new c 0) ops hwf
  have hsz : (RingBuffer.new c 0).size = 0 := by
    simp [RingBuffer.new, RingBuffer.size]
  rw [h, hsz]
  rfl

/-- **C2 witness**: a concrete sequence with a wrapping write on capacity 3. -/
theorem size_evolution_fresh_witness :
    (runOps (RingBuffer.new 3 0) [RBOp.write [1, 2], RBOp.read 1, RBOp.write [7, 8]]).size =
      [RBOp.write [1, 2], RBOp.read 1, RBOp.write [7, 8]].foldl (sizeStep 3) 0 :=
  size_evolution_fresh 3 (by decide) [RBOp.write [1, 2], RBOp.read 1, RBOp.write [7, 8]]

/-- Ceiling division as the code computes it: `(a + b - 1) / b` is at least
`a / b` rounded up — it covers `a` and is the least multiplier that does. -/
theorem ceil_div_least (a b : Nat) (hb : 0 < b) :
    a ≤ (a + b - 1) / b * b ∧ ∀ k, a ≤ k * b → (a + b - 1) / b ≤ k := by
  constructor
  · have h1 := Nat.div_add_mod (a + b - 1) b
    have h2 : (a + b - 1) % b < b := Nat.mod_lt _ hb
    rw [Nat.mul_comm]
    omega
  · intro k hk
    have hkb : (k + 1) * b = k * b + b := by ring
    have := (Nat.div_lt_iff_lt_mul hb).mpr (show a + b - 1 < (k + 1) * b from by omega)
    omega

/-- **C4.**  The sizing of `allocateTransferRequests`: at the spec's concrete
parameters it yields `bytesPerBurst = 768`, `numPackets = 4`,
`bufferSize = 768`, `numTransfers = 5` and ring capacity `1920`; in general
`numPackets` is the least `k ≥ 2` with `bytesPerBurst ≤ k * maxPacketSize`
(ceiling division floored at 2), `numTransfers` the least `k ≥ 2` with
`bufferCapacityInFrames ≤ k * framesPerBurst`, `bufferSize =
maxPacketSize * numPackets`, and the ring capacity is
`bufferSize * numTransfers / subFrameSize`. -/
theorem allocate_sizing_correct :
    allocateSizing 192 2 2 192 960 = ⟨768, 4, 768, 5, 1920⟩ ∧
    ∀ framesPerBurst subFrameSize channelCount maxPacketSize bufferCapacityInFrames : Nat,
      0 < maxPacketSize → 0 < framesPerBurst →
      (allocateSizing framesPerBurst subFrameSize channelCount maxPacketSize
          bufferCapacityInFrames).bytesPerBurst =
        framesPerBurst * subFrameSize * channelCount ∧
      2 ≤ (allocateSizing framesPerBurst subFrameSize channelCount maxPacketSize
          bufferCapacityInFrames).numPackets ∧
      framesPerBurst * subFrameSize * channelCount ≤
        (allocateSizing framesPerBurst subFrameSize channelCount maxPacketSize
          bufferCapacityInFrames).numPackets * maxPacketSize ∧
      (∀ k, 2 ≤ k → framesPerBurst * subFrameSize * channelCount ≤ k * maxPacketSize →
        (allocateSizing framesPerBurst subFrameSize channelCount maxPacketSize
          bufferCapacityInFrames).numPackets ≤ k) ∧
      (allocateSizing framesPerBurst subFrameSize channelCount maxPacketSize
          bufferCapacityInFrames).bufferSize =
        maxPacketSize * (allocateSizing framesPerBurst subFrameSize channelCount maxPacketSize
          bufferCapacityInFrames).numPackets ∧
      2 ≤ (allocateSizing framesPerBurst subFrameSize channelCount maxPacketSize
          bufferCapacityInFrames).numTransfers ∧
      bufferCapacityInFrames ≤
        (allocateSizing framesPerBurst subFrameSize channelCount maxPacketSize
          bufferCapacityInFrames).numTransfers * framesPerBurst ∧
      (∀ k, 2 ≤ k → bufferCapacityInFrames ≤ k * framesPerBurst →
        (allocateSizing framesPerBurst subFrameSize channelCount maxPacketSize
          bufferCapacityInFrames).numTransfers ≤ k) ∧
      (allocateSizing framesPerBurst subFrameSize channelCount maxPacketSize
          bufferCapacityInFrames).ringCapacity =
        (allocateSizing framesPerBurst subFrameSize channelCount maxPacketSize
          bufferCapacityInFrames).bufferSize *
          (allocateSizing framesPerBurst subFrameSize channelCount maxPacketSize
            bufferCapacityInFrames).numTransfers / subFrameSize := by
  constructor
  · decide
  intro f sF cC mP bCF hmp hf
  obtain ⟨hp1, hp2⟩ := ceil_div_least (f * sF * cC) mP hmp
  obtain ⟨ht1, ht2⟩ := ceil_div_least bCF f hf
  refine ⟨rfl, ?_, ?_, ?_, rfl, ?_, ?_, ?_, rfl⟩
  · show 2 ≤ max 2 ((f * sF * cC + mP - 1) / mP)
    omega
  · show f * sF * cC ≤ max 2 ((f * sF * cC + mP - 1) / mP) * mP
    calc f * sF * cC ≤ (f * sF * cC + mP - 1) / mP * mP := hp1
      _ ≤ max 2 ((f * sF * cC + mP - 1) / mP) * mP :=
          Nat.mul_le_mul_right _ (Nat.le_max_right _ _)
  · intro k hk hcov
    show max 2 ((f * sF * cC + mP - 1) / mP) ≤ k
    have := hp2 k hcov
    omega
  · show 2 ≤ max 2 ((bCF + f - 1) / f)
    omega
  · show bCF ≤ max 2 ((bCF + f - 1) / f) * f
    calc bCF ≤ (bCF + f - 1) / f * f := ht1
      _ ≤ max 2 ((bCF + f - 1) / f) * f := Nat.mul_le_mul_right _ (Nat.le_max_right _ _)
  · intro k hk hcov
    show max 2 ((bCF + f - 1) / f) ≤ k
    have := ht2 k hcov
    omega

/-- **C4 witness** at the spec's concrete parameters. -/
theorem allocate_sizing_correct_witness :
    2 ≤ (allocateSizing 192 2 2 192 960).numPackets ∧
    192 * 2 * 2 ≤ (allocateSizing 192 2 2 192 960).numPackets * 192 :=
  ⟨(allocate_sizing_correct.2 192 2 2 192 960 (by decide) (by decide)).2.1,
   (allocate_sizing_correct.2 192 2 2 192 960 (by decide) (by decide)).2.2.1⟩

/-- **C3 counterexample.**  With every step succeeding except
`AAudioStreamBuilder_openStream`, the constructor still reaches
`allocateTransferRequests` and lands in `READY_TO_START` (the openStream
result is never checked); and a failing `libusb_wrap_sys_device` aborts with
the state still `INITIAL`, not `ERROR`. -/
theorem constructor_failure_counterexample :
    (constructStreamer ⟨true, true, true, true, true, true, false, true,
        [true, true]⟩).state = StreamerState.READY_TO_START ∧
    (constructStreamer ⟨true, true, true, true, true, true, false, true,
        [true, true]⟩).allocateReached = true ∧
    (constructStreamer ⟨true, true, true, true, true, true, false, true,
        [true, true]⟩).transfers ≠ [] ∧
    (constructStreamer ⟨true, true, true, false, true, true, true, true, []⟩).state ≠
      StreamerState.ERROR := by
  decide

/-- **C3, amended.**  A failed log-level option, device wrap or config read
aborts construction with the state still `INITIAL`; a failed stream-builder
creation or interface resolution aborts with `ERROR`; in every aborted case
the transfer pool is left empty and `allocateTransferRequests` is never
reached.  Failures of the initial option call, of `libusb_init` and of
`openStream` do not abort construction at all. -/
theorem constructor_failure_characterization (env : ConstructorEnv) :
    ((constructStreamer env).state = StreamerState.INITIAL ↔
      ¬(env.setLogLevelOk ∧ env.wrapDeviceOk ∧ env.getConfigOk)) ∧
    ((constructStreamer env).state = StreamerState.ERROR ↔
      (env.setLogLevelOk ∧ env.wrapDeviceOk ∧ env.getConfigOk ∧
        ¬(env.createBuilderOk ∧ env.resolveInterfaceOk))) ∧
    ((constructStreamer env).state ≠ StreamerState.READY_TO_START →
      (constructStreamer env).transfers = [] ∧
        (constructStreamer env).allocateReached = false) ∧
    ((constructStreamer env).state = StreamerState.READY_TO_START ↔
      (env.setLogLevelOk ∧ env.wrapDeviceOk ∧ env.getConfigOk ∧ env.createBuilderOk ∧
        env.resolveInterfaceOk)) := by
  obtain ⟨b1, b2, b3, b4, b5, b6, b7, b8, ar⟩ := env
  cases b3 <;> cases b4 <;> cases b5 <;> cases b6 <;> cases b8 <;>
    simp [constructStreamer]

/-- **C3 witness**: the aborted-construction conjunct applied at a concrete
failing environment. -/
theorem constructor_failure_characterization_witness :
    (constructStreamer ⟨true, true, true, false, true, true, true, true, []⟩).transfers = [] ∧
    (constructStreamer ⟨true, true, true, false, true, true, true, true,
      []⟩).allocateReached = false :=
  (constructor_failure_characterization
    ⟨true, true, true, false, true, true, true, true, []⟩).2.2.1 (by decide)

theorem stopLoopExit_le (f : Nat → Bool) : ∀ gas i, 5 - i ≤ gas → i ≤ 5 →
    stopLoopExit f i ≤ 5 := by
  intro gas
  induction gas with
  | zero =>
    intro i hg hle
    rw [stopLoopExit]
    split
    · rename_i h
      omega
    · omega
  | succ n ih =>
    intro i hg hle
    rw [stopLoopExit]
    split
    · rename_i h
      exact ih (i + 1) (by omega) (by omega)
    · omega

/-- **C5.**  Whatever the environment, `stop()` ends in `READY_TO_START` or
`ERROR` (never `STOPPING` or any other state), returns `true` exactly when it
ends in `READY_TO_START`, which happens exactly when no transfer is active at
the final check and the audio player confirmed stopping; the drain loop
performs at most 5 waits. -/
theorem stop_final_state_dichotomy (env : StopEnv) :
    ((stopStreamer env).2 = StreamerState.READY_TO_START ∨
      (stopStreamer env).2 = StreamerState.ERROR) ∧
    ((stopStreamer env).1 = true ↔ (stopStreamer env).2 = StreamerState.READY_TO_START) ∧
    ((stopStreamer env).2 = StreamerState.READY_TO_START ↔
      (env.hasActive (stopLoopExit env.hasActive 0 + 1) = false ∧
        stopAudioPlayer env.requestStopOk env.playerNextState = true)) ∧
    stopLoopExit env.hasActive 0 ≤ 5 := by
  refine ⟨?_, ?_, ?_, stopLoopExit_le env.hasActive 5 0 (by omega) (by omega)⟩ <;>
    unfold stopStreamer <;>
    cases hb : env.hasActive (stopLoopExit env.hasActive 0 + 1) <;>
    cases hp : stopAudioPlayer env.requestStopOk env.playerNextState <;>
    simp [hb, hp]

/-- `submitTransferRequests` fails exactly by moving the state to `ERROR`,
and otherwise leaves the state alone. -/
theorem submitTransferRequests_state (s : StartState) (f : Nat → Bool) :
    ((submitTransferRequests s f).2 = false →
      (submitTransferRequests s f).1.state = StreamerState.ERROR) ∧
    ((submitTransferRequests s f).2 = true →
      (submitTransferRequests s f).1.state = s.state) := by
  simp only [submitTransferRequests]
  split <;> simp

/-- **C6.**  `start()` from any state other than `READY_TO_START` returns
`false` and changes nothing at all; from `READY_TO_START` it returns `true`
exactly when it ends in `STARTED`, and every failing run (submission failure
or either start-confirmation failure) ends in `ERROR`. -/
theorem start_state_machine (s : StartState) (env : StartEnv) :
    (s.state ≠ StreamerState.READY_TO_START → startStreamer s env = (s, false)) ∧
    (s.state = StreamerState.READY_TO_START →
      ((startStreamer s env).2 = true ↔
        (startStreamer s env).1.state = StreamerState.STARTED) ∧
      ((startStreamer s env).2 = false →
        (startStreamer s env).1.state = StreamerState.ERROR)) := by
  constructor
  · intro hs
    unfold startStreamer
    rw [if_pos hs]
  · intro hs
    unfold startStreamer
    rw [if_neg (by simp [hs])]
    obtain ⟨hfail, hok⟩ := submitTransferRequests_state
      { s with
        state := StreamerState.STARTING
        stats := { s.stats with
          t0_10_s := 0
          total_bytes := 0
          player_cb_counter := 0
          usb_cb_counter := 0
          event_loops := 0 }
        stopUsbAudioCapture := 0 } env.submitOk
    cases hsub : (submitTransferRequests
        { s with
          state := StreamerState.STARTING
          stats := { s.stats with
            t0_10_s := 0
            total_bytes := 0
            player_cb_counter := 0
            usb_cb_counter := 0
            event_loops := 0 }
          stopUsbAudioCapture := 0 } env.submitOk).2
    · simp only [hsub, Bool.not_false, if_pos]
      simp [hfail hsub]
    · simp only [hsub, Bool.not_true, if_neg]
      cases hplay : startAudioPlayer env.requestStartOk env.playerNextState <;>
        cases hwait : env.waitResultOk <;>
        simp [hsub, hplay, hwait]

/-- **C6 witness**: a rejected `start()` from `STARTED`, and a failing
submission from `READY_TO_START` landing in `ERROR`. -/
theorem start_state_machine_witness :
    startStreamer ⟨StreamerState.STARTED, ⟨1, 2, 3, 4, 5, 6, 7, 8⟩, [false], 9⟩
        ⟨fun _ => true, true, AAState.STARTED, true⟩ =
      (⟨StreamerState.STARTED, ⟨1, 2, 3, 4, 5, 6, 7, 8⟩, [false], 9⟩, false) ∧
    (startStreamer ⟨StreamerState.READY_TO_START, ⟨1, 2, 3, 4, 5, 6, 7, 8⟩, [false], 9⟩
        ⟨fun _ => false, true, AAState.STARTED, true⟩).1.state = StreamerState.ERROR :=
  ⟨(start_state_machine ⟨StreamerState.STARTED, ⟨1, 2, 3, 4, 5, 6, 7, 8⟩, [false], 9⟩
      ⟨fun _ => true, true, AAState.STARTED, true⟩).1 (by decide),
   ((start_state_machine ⟨StreamerState.READY_TO_START, ⟨1, 2, 3, 4, 5, 6, 7, 8⟩, [false], 9⟩
      ⟨fun _ => false, true, AAState.STARTED, true⟩).2 rfl).2 (by decide)⟩

/-- **C7.**  A completion callback whose transfer status is `NO_DEVICE` marks
the slot not-in-flight and returns at once: no resubmission is attempted, the
ring buffer is untouched and no statistics counter changes. -/
theorem transfer_callback_no_device (packets : List IsoPacket) (state : StreamerState)
    (ring : RingBuffer Nat) (stats : UsbAudioStreamerStats) (mps cc sfs : Nat)
    (otherActive : Bool) (now nowHr : Nat) (resubmit : ResubmitStatus) :
    transferCallback TransferStatus.NO_DEVICE packets state ring stats mps cc sfs
        otherActive now nowHr resubmit =
      ⟨false, ring, stats, false, false⟩ := by
  unfold transferCallback
  rw [if_pos rfl]

/-- **C8.**  When the ring buffer holds fewer than
`channelCount * numFrames` samples at the render callback's check, the output
block is `numFrames * channelCount * subFrameSize` zero bytes, the ring buffer
(read cursor and contents) is unchanged, and the callback returns
`CONTINUE`. -/
theorem render_underrun_silence (ring : RingBuffer Nat) (stats : UsbAudioStreamerStats)
    (numFrames channelCount subFrameSize : Nat)
    (h : ring.size < channelCount * numFrames) :
    (audioPlaybackCallback ring stats numFrames channelCount subFrameSize).output =
      List.replicate (numFrames * channelCount * subFrameSize) 0 ∧
    (audioPlaybackCallback ring stats numFrames channelCount subFrameSize).ring = ring ∧
    (audioPlaybackCallback ring stats numFrames channelCount subFrameSize).result =
      AAudioCallbackResult.CONTINUE := by
  unfold audioPlaybackCallback
  rw [if_pos h]
  exact ⟨rfl, rfl, rfl⟩

/-- **C8 witness**: an empty capacity-4 buffer asked for 2 samples. -/
theorem render_underrun_silence_witness :
    (audioPlaybackCallback (RingBuffer.new 4 0) ⟨1, 2, 3, 4, 5, 6, 7, 8⟩ 1 2 2).output =
      List.replicate 4 0 ∧
    (audioPlaybackCallback (RingBuffer.new 4 0) ⟨1, 2, 3, 4, 5, 6, 7, 8⟩ 1 2 2).ring =
      RingBuffer.new 4 0 ∧
    (audioPlaybackCallback (RingBuffer.new 4 0) ⟨1, 2, 3, 4, 5, 6, 7, 8⟩ 1 2 2).result =
      AAudioCallbackResult.CONTINUE :=
  render_underrun_silence (RingBuffer.new 4 0) ⟨1, 2, 3, 4, 5, 6, 7, 8⟩ 1 2 2 (by decide)

end UsbVideo
